import Mathlib

/-!
Verification model of `mu/modes/debugger.py` (the `DebugMode` debug-session
controller of the Mu editor).

The controller state (`DebugMode`) and its operations (`stop`, `finished`,
`toggle_breakpoint`, `debug_on_bootstrap`, `debug_on_breakpoint_enable`,
`debug_on_breakpoint_disable`, `debug_on_line`) are translated directly from
the Python source.  The debugger client (`mu/debugger/client.py`) and the Qt
editor widgets are external collaborators; the parts of their behaviour the
controller relies on (the per-file breakpoint store and boolean per-line
marker state) are modelled from the specification and marked as such.

Operations that can raise in Python (attribute errors when no debug client is
attached, `KeyError` on an unguarded dict lookup, `None` current tab) are
modelled as `Option`-returning functions, `none` standing for the raised
exception.
-/

namespace Mu

/-- A breakpoint record: `file_path`, 1-based `line`, `enabled` flag and the
(inert) `ignore_count`, as in the spec's data model. -/
structure Breakpoint where
  file_path : String
  line : Nat
  enabled : Bool
  ignore_count : Nat
deriving DecidableEq, Repr

/-- A per-file breakpoint map, keyed by 1-based line, modelling the Python
dict returned by `Debugger.breakpoints(filename)`. -/
abbrev FileBPs := List (Nat × Breakpoint)

/-- First-match lookup in a per-file breakpoint map (Python `dict` lookup). -/
def lookupKey (m : FileBPs) (k : Nat) : Option Breakpoint :=
  match m with
  | [] => none
  | (k', b) :: rest => if k' = k then some b else lookupKey rest k

/-- Number of records stored under key `k` (for a well-formed dict this is
at most one). -/
def countKey (m : FileBPs) (k : Nat) : Nat :=
  match m with
  | [] => 0
  | (k', _) :: rest => (if k' = k then 1 else 0) + countKey rest k

/-- Set the `enabled` flag of the record stored under key `k`, in place. -/
def setEnabledAt (m : FileBPs) (k : Nat) (e : Bool) : FileBPs :=
  match m with
  | [] => []
  | (k', b) :: rest =>
    if k' = k then (k', { b with enabled := e }) :: setEnabledAt rest k e
    else (k', b) :: setEnabledAt rest k e

/-- The debug client's breakpoint index: `file_path -> (line -> Breakpoint)`. -/
abbrev BPIndex := List (String × FileBPs)

/-- Per-file view of the index; an unknown file has the empty map. -/
def lookupFile (idx : BPIndex) (f : String) : FileBPs :=
  match idx with
  | [] => []
  | (f', m) :: rest => if f' = f then m else lookupFile rest f

/-- Update the per-file map of `f` through `g`, creating it when absent. -/
def updateFile (idx : BPIndex) (f : String) (g : FileBPs → FileBPs) : BPIndex :=
  match idx with
  | [] => [(f, g [])]
  | (f', m) :: rest =>
    if f' = f then (f', g m) :: rest else (f', m) :: updateFile rest f g

/-- The debug client handle.  `bp_index` is `none` when the attribute does
not exist yet (the `hasattr(self.debugger, 'bp_index')` check in
`finished`). -/
structure DebugClient where
  bp_index : Option BPIndex
deriving DecidableEq, Repr

/-- Modelled from the spec: `BreakpointStore.all_for(file)` — the per-file
mapping `line -> Breakpoint` (`Debugger.breakpoints` of
`mu/debugger/client.py`, which is not under `src/`).  `none` models the
`AttributeError` raised when `bp_index` does not exist. -/
def DebugClient.breakpoints (d : DebugClient) (f : String) : Option FileBPs :=
  match d.bp_index with
  | none => none
  | some idx => some (lookupFile idx f)

/-- Modelled from the spec: `BreakpointStore.create` is create-or-reuse — a
fresh enabled record is added only when no record exists at that line
(`Debugger.create_breakpoint`, not under `src/`). -/
def DebugClient.create_breakpoint (d : DebugClient) (f : String) (line : Nat) :
    DebugClient :=
  match d.bp_index with
  | none => d
  | some idx =>
    ⟨some (updateFile idx f (fun m =>
      match lookupKey m line with
      | some _ => m
      | none => m ++ [(line, ⟨f, line, true, 0⟩)]))⟩

/-- Modelled from the spec: `enable(bp)` is a pure state flip of the record
the argument aliases (`Debugger.enable_breakpoint`, not under `src/`). -/
def DebugClient.enable_breakpoint (d : DebugClient) (bp : Breakpoint) :
    DebugClient :=
  match d.bp_index with
  | none => d
  | some idx =>
    ⟨some (updateFile idx bp.file_path (fun m => setEnabledAt m bp.line true))⟩

/-- Modelled from the spec: `disable(bp)` is a pure state flip of the record
the argument aliases (`Debugger.disable_breakpoint`, not under `src/`). -/
def DebugClient.disable_breakpoint (d : DebugClient) (bp : Breakpoint) :
    DebugClient :=
  match d.bp_index with
  | none => d
  | some idx =>
    ⟨some (updateFile idx bp.file_path (fun m => setEnabledAt m bp.line false))⟩

/-- Boolean membership in a list of line numbers. -/
def memNat (l : List Nat) (x : Nat) : Bool :=
  match l with
  | [] => false
  | y :: ys => if y = x then true else memNat ys x

/-- Remove a line number from a list of line numbers. -/
def removeNat (l : List Nat) (x : Nat) : List Nat :=
  match l with
  | [] => []
  | y :: ys => if y = x then removeNat ys x else y :: removeNat ys x

/-- Idempotent insertion into a list of line numbers. -/
def insertNat (l : List Nat) (x : Nat) : List Nat :=
  if memNat l x then l else x :: l

/-- An editor tab: its file path, the 0-based lines carrying a breakpoint
marker, the remembered `breakpoint_lines` set and the current selection.
Marker state is modelled from the spec's UI-sink contract
(`set_marker`/`clear_marker`): boolean presence per line. -/
structure Tab where
  path : String
  markers : List Nat
  breakpoint_lines : List Nat
  selection : Nat × Nat × Nat × Nat
deriving DecidableEq, Repr

/-- `tab.markersAtLine(line)` as a boolean: a breakpoint marker is present. -/
def Tab.markersAtLine (t : Tab) (l : Nat) : Bool :=
  memNat t.markers l

/-- `tab.markerAdd(line, BREAKPOINT_MARKER)` at the spec's boolean marker
level: ensure a marker is shown at the line. -/
def Tab.markerAdd (t : Tab) (l : Nat) : Tab :=
  { t with markers := insertNat t.markers l }

/-- `tab.markerDelete(line, BREAKPOINT_MARKER)` at the spec's boolean marker
level: ensure no marker is shown at the line. -/
def Tab.markerDelete (t : Tab) (l : Nat) : Tab :=
  { t with markers := removeNat t.markers l }

/-- `tab.breakpoint_lines.add(line)` (Python set insertion). -/
def Tab.addBpLine (t : Tab) (l : Nat) : Tab :=
  { t with breakpoint_lines := insertNat t.breakpoint_lines l }

/-- The editor view: open tabs, the index of the current tab, and whether the
runner pane and the debug inspector are shown. -/
structure View where
  widgets : List Tab
  current : Nat
  runner_pane : Bool
  inspector : Bool
deriving DecidableEq, Repr

/-- `self.view.current_tab`. -/
def View.current_tab (v : View) : Option Tab :=
  v.widgets.get? v.current

/-- The `DebugMode` controller state: the view, the process runner handle,
the debug client, the editor mode and read-only flag, and the enabled state
of the five action buttons. -/
structure DebugMode where
  view : View
  runner : Option Unit
  debugger : Option DebugClient
  editor_mode : String
  read_only : Bool
  stop_enabled : Bool
  run_enabled : Bool
  step_over_enabled : Bool
  step_in_enabled : Bool
  step_out_enabled : Bool
deriving DecidableEq, Repr

/-- The session is `Idle` exactly when no runner handle is held. -/
def isIdle (s : DebugMode) : Bool :=
  s.runner.isNone

/-- Number of surviving process handles. -/
def processHandles (s : DebugMode) : Nat :=
  if s.runner.isSome then 1 else 0

/-- The record stored at `(f, k)` in the controller's attached client. -/
def storeAt (s : DebugMode) (f : String) (k : Nat) : Option Breakpoint :=
  match s.debugger with
  | none => none
  | some d =>
    match d.bp_index with
    | none => none
    | some idx => lookupKey (lookupFile idx f) k

/-- Number of records stored at `(f, k)` in the attached client. -/
def storeCountAt (s : DebugMode) (f : String) (k : Nat) : Nat :=
  match s.debugger with
  | none => 0
  | some d =>
    match d.bp_index with
    | none => 0
    | some idx => countKey (lookupFile idx f) k

/-- Whether a breakpoint marker is shown at 0-based line `l` of tab `i`. -/
def markerAt (s : DebugMode) (i : Nat) (l : Nat) : Bool :=
  match s.view.widgets.get? i with
  | none => false
  | some t => t.markersAtLine l

/-- `DebugMode.stop` (`debugger.py` lines 127-141): kill and drop the runner
and client when present, then unconditionally reset the editor mode to
`python` and turn read-only off. -/
def stop (s : DebugMode) : DebugMode :=
  let s1 :=
    match s.runner with
    | some _ =>
      { s with runner := none, debugger := none,
               view := { s.view with runner_pane := false, inspector := false } }
    | none => s
  { s1 with editor_mode := "python", read_only := false }

/-- One step of the marker-resynchronisation loop of `finished`: for an
enabled record at 1-based `line`, show the marker at `line - 1` and remember
`line - 1` in `breakpoint_lines`. -/
def resyncStep (t : Tab) (p : Nat × Breakpoint) : Tab :=
  if p.2.enabled then (t.markerAdd (p.1 - 1)).addBpLine (p.1 - 1) else t

/-- Per-tab body of the loop in `finished` (`debugger.py` lines 151-160):
delete all markers, clear `breakpoint_lines`, reset the selection, then —
when the client has a `bp_index` — re-add a marker for every enabled record
of this tab's file. -/
def resyncTab (dbg : Option DebugClient) (t : Tab) : Tab :=
  let t0 : Tab := { t with markers := [], breakpoint_lines := [],
                           selection := (0, 0, 0, 0) }
  match dbg with
  | none => t0
  | some d =>
    match d.bp_index with
    | none => t0
    | some idx => (lookupFile idx t0.path).foldl resyncStep t0

/-- `DebugMode.finished` (`debugger.py` lines 143-160): on process
termination, disable every action button except `stop` and resynchronise
every open tab's markers from the client's breakpoint store. -/
def finished (s : DebugMode) (_code : Int) (_status : Nat) : DebugMode :=
  { s with
    run_enabled := false, step_over_enabled := false,
    step_in_enabled := false, step_out_enabled := false,
    view := { s.view with
              widgets := s.view.widgets.map (resyncTab s.debugger) } }

/-- `DebugMode.toggle_breakpoint` (`debugger.py` lines 192-206), acting on
the tab at index `i`.  `none` models a raised exception: no client attached,
no `bp_index`, no such tab, or the unguarded `bps[line + 1]` `KeyError` in
the marker-present branch. -/
def toggle_breakpoint (s : DebugMode) (line : Nat) (i : Nat) :
    Option DebugMode :=
  match s.debugger with
  | none => none
  | some d =>
    match d.bp_index with
    | none => none
    | some idx =>
      match s.view.widgets.get? i with
      | none => none
      | some tab =>
        let bps := lookupFile idx tab.path
        if tab.markersAtLine line then
          match lookupKey bps (line + 1) with
          | none => none
          | some bp =>
            some { s with
                   debugger := some (DebugClient.disable_breakpoint d bp),
                   view := { s.view with
                             widgets := s.view.widgets.set i
                               (tab.markerDelete line) } }
        else
          match lookupKey bps (line + 1) with
          | some bp =>
            some { s with
                   debugger := some (DebugClient.enable_breakpoint d bp),
                   view := { s.view with
                             widgets := s.view.widgets.set i
                               (tab.markerAdd line) } }
          | none =>
            some { s with
                   debugger :=
                     some (DebugClient.create_breakpoint d tab.path (line + 1)),
                   view := { s.view with
                             widgets := s.view.widgets.set i
                               (tab.markerAdd line) } }

/-- Two toggles in succession at the same line of the same tab. -/
def toggleTwice (s : DebugMode) (line : Nat) (i : Nat) : Option DebugMode :=
  match toggle_breakpoint s line i with
  | none => none
  | some s1 => toggle_breakpoint s1 line i

/-- Apply a function to the current tab; `none` models the `AttributeError`
raised when there is no current tab. -/
def modifyCurrentTab (s : DebugMode) (g : Tab → Tab) : Option DebugMode :=
  match s.view.widgets.get? s.view.current with
  | none => none
  | some t =>
    some { s with
           view := { s.view with
                     widgets := s.view.widgets.set s.view.current (g t) } }

/-- `DebugMode.debug_on_breakpoint_enable` (`debugger.py` lines 219-224):
add a marker at the 0-based line `bp.line - 1` of the current tab. -/
def debug_on_breakpoint_enable (s : DebugMode) (bp : Breakpoint) :
    Option DebugMode :=
  modifyCurrentTab s (fun t => t.markerAdd (bp.line - 1))

/-- `DebugMode.debug_on_breakpoint_disable` (`debugger.py` lines 226-231):
delete the marker at the 0-based line `bp.line - 1` of the current tab. -/
def debug_on_breakpoint_disable (s : DebugMode) (bp : Breakpoint) :
    Option DebugMode :=
  modifyCurrentTab s (fun t => t.markerDelete (bp.line - 1))

/-- `DebugMode.debug_on_line` (`debugger.py` lines 233-238): set the current
tab's selection to the span from `(line - 1, 0)` to `(line, 0)`.  The
`filename` argument is accepted but never read. -/
def debug_on_line (s : DebugMode) (filename : String) (line : Nat) :
    Option DebugMode :=
  modifyCurrentTab s (fun t => { t with selection := (line - 1, 0, line, 0) })

/-- An outbound request to the debug client. -/
inductive Request where
  | setBreakpoint (file : String) (line : Nat)
  | run
deriving DecidableEq, Repr

/-- `DebugMode.debug_on_bootstrap` (`debugger.py` lines 208-217) as the
sequence of requests it issues: the nested loop emits one
`create_breakpoint(tab.path, line + 1)` request per remembered line of each
open tab, and `do_run()` is issued after the loop. -/
def debug_on_bootstrap (s : DebugMode) : List Request :=
  (s.view.widgets.foldl
    (fun acc t =>
      t.breakpoint_lines.foldl
        (fun a l => a ++ [Request.setBreakpoint t.path (l + 1)]) acc)
    []) ++ [Request.run]

/-- Well-formedness of a per-file map as a Python dict: pairwise distinct
keys. -/
def keysDistinct (m : FileBPs) : Prop :=
  List.Pairwise (fun p q => p.1 ≠ q.1) m

/-! Concrete fixture states, used by witnesses and counterexamples. -/

/-- A single-file tab on `a.py` with the given marker lines. -/
def tabA (ms : List Nat) : Tab :=
  ⟨"a.py", ms, [], (0, 0, 0, 0)⟩

/-- A debug client whose index holds the map `m` for `a.py`. -/
def clientA (m : FileBPs) : DebugClient :=
  ⟨some [("a.py", m)]⟩

/-- An in-session controller state with a single `a.py` tab. -/
def modeA (ms : List Nat) (m : FileBPs) : DebugMode :=
  { view := { widgets := [tabA ms], current := 0,
              runner_pane := true, inspector := true },
    runner := some (), debugger := some (clientA m),
    editor_mode := "debugger", read_only := true,
    stop_enabled := true, run_enabled := true, step_over_enabled := true,
    step_in_enabled := true, step_out_enabled := true }

/-- An in-session state with two tabs, `a.py` and `b.py`; the current tab is
`b.py` (index 1). -/
def modeAB : DebugMode :=
  { view := { widgets := [⟨"a.py", [], [], (0, 0, 0, 0)⟩,
                          ⟨"b.py", [], [], (0, 0, 0, 0)⟩],
              current := 1, runner_pane := true, inspector := true },
    runner := some (), debugger := some (clientA []),
    editor_mode := "debugger", read_only := true,
    stop_enabled := true, run_enabled := true, step_over_enabled := true,
    step_in_enabled := true, step_out_enabled := true }

/-- A fully idle state: no runner, no client, python mode, writable. -/
def idleMode : DebugMode :=
  { view := { widgets := [tabA []], current := 0,
              runner_pane := false, inspector := false },
    runner := none, debugger := none,
    editor_mode := "python", read_only := false,
    stop_enabled := true, run_enabled := true, step_over_enabled := true,
    step_in_enabled := true, step_out_enabled := true }

/-- A state with no runner whose editor mode still reads `debugger`. -/
def staleMode : DebugMode :=
  { view := { widgets := [tabA []], current := 0,
              runner_pane := false, inspector := false },
    runner := none, debugger := none,
    editor_mode := "debugger", read_only := true,
    stop_enabled := true, run_enabled := true, step_over_enabled := true,
    step_in_enabled := true, step_out_enabled := true }

/-! Helper lemmas about the list-level operations. -/


theorem getSet_same {α : Type} (l : List α) (i : Nat) (a b : α)
    (h : l.get? i = some b) : (l.set i a).get? i = some a := by
  induction l generalizing i with
  | nil => simp at h
  | cons x xs ih =>
    cases i with
    | zero => rfl
    | succ n => exact ih n h

theorem getSet_other {α : Type} (l : List α) (i j : Nat) (a : α)
    (h : j ≠ i) : (l.set i a).get? j = l.get? j := by
  induction l generalizing i j with
  | nil => rfl
  | cons x xs ih =>
    cases i with
    | zero =>
      cases j with
      | zero => exact absurd rfl h
      | succ m => rfl
    | succ n =>
      cases j with
      | zero => rfl
      | succ m => exact ih n m (fun e => h (by rw [e]))

theorem memNat_insertNat_self (l : List Nat) (x : Nat) :
    memNat (insertNat l x) x = true := by
  unfold insertNat
  by_cases h : memNat l x = true
  · simp [h]
  · simp at h
    simp [h, memNat]

theorem memNat_removeNat_self (l : List Nat) (x : Nat) :
    memNat (removeNat l x) x = false := by
  induction l with
  | nil => rfl
  | cons y ys ih =>
    unfold removeNat
    by_cases h : y = x
    · simp [h, ih]
    · simp [h, memNat, ih]

theorem memNat_insertNat_other (l : List Nat) (x y : Nat) (h : y ≠ x) :
    memNat (insertNat l x) y = memNat l y := by
  unfold insertNat
  by_cases hm : memNat l x = true
  · simp [hm]
  · simp at hm
    simp [hm, memNat, Ne.symm h]

theorem memNat_removeNat_other (l : List Nat) (x y : Nat) (h : y ≠ x) :
    memNat (removeNat l x) y = memNat l y := by
  induction l with
  | nil => rfl
  | cons z zs ih =>
    unfold removeNat
    by_cases hz : z = x
    · subst hz
      simp [memNat, Ne.symm h, ih]
    · simp [hz, memNat, ih]

theorem removeNat_of_not_mem (l : List Nat) (x : Nat)
    (h : memNat l x = false) : removeNat l x = l := by
  induction l with
  | nil => rfl
  | cons y ys ih =>
    unfold memNat at h
    by_cases hy : y = x
    · simp [hy] at h
    · simp [hy] at h
      simp [removeNat, hy, ih h]

theorem lookupKey_setEnabledAt_self (m : FileBPs) (k : Nat) (e : Bool) :
    lookupKey (setEnabledAt m k e) k
      = (lookupKey m k).map (fun b => { b with enabled := e }) := by
  induction m with
  | nil => rfl
  | cons p rest ih =>
    obtain ⟨k', b⟩ := p
    by_cases h : k' = k <;> simp [setEnabledAt, lookupKey, h, ih]

theorem lookupKey_setEnabledAt_other (m : FileBPs) (k k' : Nat) (e : Bool)
    (h : k' ≠ k) : lookupKey (setEnabledAt m k e) k' = lookupKey m k' := by
  induction m with
  | nil => rfl
  | cons p rest ih =>
    obtain ⟨q, b⟩ := p
    by_cases hq : q = k
    · subst hq
      simp [setEnabledAt, lookupKey, Ne.symm h, ih]
    · by_cases hq' : q = k'
      · subst hq'
        simp [setEnabledAt, lookupKey, hq, ih]
      · simp [setEnabledAt, lookupKey, hq, hq', ih]

theorem lookupKey_append_self (m : FileBPs) (k : Nat) (b : Breakpoint)
    (h : lookupKey m k = none) : lookupKey (m ++ [(k, b)]) k = some b := by
  induction m with
  | nil => simp [lookupKey]
  | cons p rest ih =>
    unfold lookupKey at h ⊢
    by_cases hp : p.1 = k
    · simp [hp] at h
    · simp [hp] at h ⊢
      exact ih h

theorem countKey_setEnabledAt (m : FileBPs) (k k' : Nat) (e : Bool) :
    countKey (setEnabledAt m k e) k' = countKey m k' := by
  induction m with
  | nil => rfl
  | cons p rest ih =>
    obtain ⟨q, b⟩ := p
    by_cases hq : q = k
    · subst hq
      by_cases hq' : q = k'
      · subst hq'
        simp [setEnabledAt, countKey, ih]
      · simp [setEnabledAt, countKey, hq', ih]
    · by_cases hq' : q = k'
      · subst hq'
        simp [setEnabledAt, countKey, hq, ih]
      · simp [setEnabledAt, countKey, hq, hq', ih]

theorem countKey_append (m : FileBPs) (k : Nat) (b : Breakpoint) :
    countKey (m ++ [(k, b)]) k = countKey m k + 1 := by
  induction m with
  | nil => simp [countKey]
  | cons p rest ih =>
    obtain ⟨q, c⟩ := p
    by_cases hq : q = k <;> simp [countKey, hq, ih] <;> omega

theorem lookupFile_updateFile_self (idx : BPIndex) (f : String)
    (g : FileBPs → FileBPs) :
    lookupFile (updateFile idx f g) f = g (lookupFile idx f) := by
  induction idx with
  | nil => simp [updateFile, lookupFile]
  | cons p rest ih =>
    unfold updateFile lookupFile
    by_cases h : p.1 = f
    · simp [h, lookupFile]
    · simp [h, lookupFile, ih]

/-! Characterisations of a single `toggle_breakpoint` call, one per branch of
the Python function. -/

theorem toggle_eq_off (s : DebugMode) (L i : Nat) (d : DebugClient)
    (idx : BPIndex) (tab : Tab) (bp : Breakpoint)
    (hd : s.debugger = some d) (hx : d.bp_index = some idx)
    (ht : s.view.widgets.get? i = some tab)
    (hm : tab.markersAtLine L = true)
    (hb : lookupKey (lookupFile idx tab.path) (L + 1) = some bp) :
    toggle_breakpoint s L i
      = some { s with
               debugger := some (DebugClient.disable_breakpoint d bp),
               view := { s.view with
                         widgets := s.view.widgets.set i
                           (tab.markerDelete L) } } := by
  have ht' : s.view.widgets[i]? = some tab := by simpa using ht
  simp [toggle_breakpoint, hd, hx, ht', hm, hb]

theorem toggle_eq_off_fails (s : DebugMode) (L i : Nat) (d : DebugClient)
    (idx : BPIndex) (tab : Tab)
    (hd : s.debugger = some d) (hx : d.bp_index = some idx)
    (ht : s.view.widgets.get? i = some tab)
    (hm : tab.markersAtLine L = true)
    (hb : lookupKey (lookupFile idx tab.path) (L + 1) = none) :
    toggle_breakpoint s L i = none := by
  have ht' : s.view.widgets[i]? = some tab := by simpa using ht
  simp [toggle_breakpoint, hd, hx, ht', hm, hb]

theorem toggle_eq_on_reuse (s : DebugMode) (L i : Nat) (d : DebugClient)
    (idx : BPIndex) (tab : Tab) (bp : Breakpoint)
    (hd : s.debugger = some d) (hx : d.bp_index = some idx)
    (ht : s.view.widgets.get? i = some tab)
    (hm : tab.markersAtLine L = false)
    (hb : lookupKey (lookupFile idx tab.path) (L + 1) = some bp) :
    toggle_breakpoint s L i
      = some { s with
               debugger := some (DebugClient.enable_breakpoint d bp),
               view := { s.view with
                         widgets := s.view.widgets.set i
                           (tab.markerAdd L) } } := by
  have ht' : s.view.widgets[i]? = some tab := by simpa using ht
  simp [toggle_breakpoint, hd, hx, ht', hm, hb]

theorem toggle_eq_on_create (s : DebugMode) (L i : Nat) (d : DebugClient)
    (idx : BPIndex) (tab : Tab)
    (hd : s.debugger = some d) (hx : d.bp_index = some idx)
    (ht : s.view.widgets.get? i = some tab)
    (hm : tab.markersAtLine L = false)
    (hb : lookupKey (lookupFile idx tab.path) (L + 1) = none) :
    toggle_breakpoint s L i
      = some { s with
               debugger :=
                 some (DebugClient.create_breakpoint d tab.path (L + 1)),
               view := { s.view with
                         widgets := s.view.widgets.set i
                           (tab.markerAdd L) } } := by
  have ht' : s.view.widgets[i]? = some tab := by simpa using ht
  simp [toggle_breakpoint, hd, hx, ht', hm, hb]

/-- C10: in the marker-present branch `toggle_breakpoint` indexes the
breakpoint map unguarded (`bps[line + 1]`): when a record at key `L + 1`
exists the call succeeds, and when a marker is shown at `L` without such a
record it fails with a lookup error (modelled `none`), disabling or removing
nothing. -/
theorem toggle_off_requires_record_under_marker
    (s : DebugMode) (L i : Nat) (d : DebugClient) (idx : BPIndex) (tab : Tab)
    (hd : s.debugger = some d) (hx : d.bp_index = some idx)
    (ht : s.view.widgets.get? i = some tab)
    (hm : tab.markersAtLine L = true) :
    ((lookupKey (lookupFile idx tab.path) (L + 1)).isSome = true →
      (toggle_breakpoint s L i).isSome = true)
    ∧ (lookupKey (lookupFile idx tab.path) (L + 1) = none →
      toggle_breakpoint s L i = none) := by
  constructor
  · intro h
    cases hb : lookupKey (lookupFile idx tab.path) (L + 1) with
    | none => rw [hb] at h; simp at h
    | some bp =>
      rw [toggle_eq_off s L i d idx tab bp hd hx ht hm hb]
      rfl
  · intro hb
    exact toggle_eq_off_fails s L i d idx tab hd hx ht hm hb

theorem toggle_off_requires_record_under_marker_witness :
    ((lookupKey (lookupFile [("a.py", [(5, ⟨"a.py", 5, true, 0⟩)])] "a.py")
        5).isSome = true →
      (toggle_breakpoint
        (modeA [4] [(5, ⟨"a.py", 5, true, 0⟩)]) 4 0).isSome = true)
    ∧ (lookupKey (lookupFile [("a.py", [(5, ⟨"a.py", 5, true, 0⟩)])] "a.py")
        5 = none →
      toggle_breakpoint (modeA [4] [(5, ⟨"a.py", 5, true, 0⟩)]) 4 0 = none) :=
  toggle_off_requires_record_under_marker
    (modeA [4] [(5, ⟨"a.py", 5, true, 0⟩)]) 4 0
    (clientA [(5, ⟨"a.py", 5, true, 0⟩)]) [("a.py", [(5, ⟨"a.py", 5, true, 0⟩)])]
    (tabA [4]) rfl rfl rfl (by decide)

/-- C4: toggling on at a line whose record already exists re-enables that
same record in place — the store keeps exactly the records it had, with only
the `enabled` flag of the record at `L + 1` set, and a fresh record is
appended only when none exists. -/
theorem toggle_on_reenables_existing_record
    (s : DebugMode) (L i : Nat) (d : DebugClient) (idx : BPIndex) (tab : Tab)
    (hd : s.debugger = some d) (hx : d.bp_index = some idx)
    (ht : s.view.widgets.get? i = some tab)
    (hm : tab.markersAtLine L = false) :
    (∀ b : Breakpoint, lookupKey (lookupFile idx tab.path) (L + 1) = some b →
      b.file_path = tab.path → b.line = L + 1 →
      ∃ s1, toggle_breakpoint s L i = some s1
        ∧ storeAt s1 tab.path (L + 1) = some { b with enabled := true }
        ∧ (∀ k, k ≠ L + 1 → storeAt s1 tab.path k = storeAt s tab.path k)
        ∧ storeCountAt s1 tab.path (L + 1)
            = storeCountAt s tab.path (L + 1))
    ∧ (lookupKey (lookupFile idx tab.path) (L + 1) = none →
      ∃ s1, toggle_breakpoint s L i = some s1
        ∧ storeAt s1 tab.path (L + 1) = some ⟨tab.path, L + 1, true, 0⟩
        ∧ storeCountAt s1 tab.path (L + 1)
            = storeCountAt s tab.path (L + 1) + 1) := by
  constructor
  · intro b hb hbf hbl
    refine ⟨_, toggle_eq_on_reuse s L i d idx tab b hd hx ht hm hb, ?_, ?_, ?_⟩
    · simp [storeAt, DebugClient.enable_breakpoint, hx, hbf, hbl,
            lookupFile_updateFile_self, lookupKey_setEnabledAt_self, hb]
    · intro k hk
      simp [storeAt, DebugClient.enable_breakpoint, hx, hbf, hbl, hd,
            lookupFile_updateFile_self, lookupKey_setEnabledAt_other _ _ _ _ hk]
    · simp [storeCountAt, DebugClient.enable_breakpoint, hx, hbf, hbl, hd,
            lookupFile_updateFile_self, countKey_setEnabledAt]
  · intro hb
    refine ⟨_, toggle_eq_on_create s L i d idx tab hd hx ht hm hb, ?_, ?_⟩
    · simp [storeAt, DebugClient.create_breakpoint, hx,
            lookupFile_updateFile_self, hb, lookupKey_append_self _ _ _ hb]
    · simp [storeCountAt, DebugClient.create_breakpoint, hx, hd,
            lookupFile_updateFile_self, hb, countKey_append]

theorem toggle_on_reenables_existing_record_witness :
    ∃ s1, toggle_breakpoint
        (modeA [] [(5, ⟨"a.py", 5, false, 0⟩)]) 4 0 = some s1
      ∧ storeAt s1 ("a.py") 5 = some ⟨"a.py", 5, true, 0⟩
      ∧ (∀ k, k ≠ 5 → storeAt s1 ("a.py") k
          = storeAt (modeA [] [(5, ⟨"a.py", 5, false, 0⟩)]) "a.py" k)
      ∧ storeCountAt s1 ("a.py") 5
          = storeCountAt (modeA [] [(5, ⟨"a.py", 5, false, 0⟩)]) "a.py" 5 :=
  (toggle_on_reenables_existing_record
    (modeA [] [(5, ⟨"a.py", 5, false, 0⟩)]) 4 0
    (clientA [(5, ⟨"a.py", 5, false, 0⟩)])
    [("a.py", [(5, ⟨"a.py", 5, false, 0⟩)])]
    (tabA []) rfl rfl rfl rfl).1 ⟨"a.py", 5, false, 0⟩ rfl rfl rfl

/-! Double-toggle case lemmas. -/

theorem toggleTwice_marker_on (s : DebugMode) (L i : Nat) (d : DebugClient)
    (idx : BPIndex) (tab : Tab) (b : Breakpoint)
    (hd : s.debugger = some d) (hx : d.bp_index = some idx)
    (ht : s.view.widgets.get? i = some tab)
    (hm : tab.markersAtLine L = true)
    (hb : lookupKey (lookupFile idx tab.path) (L + 1) = some b)
    (hbf : b.file_path = tab.path) (hbl : b.line = L + 1)
    (hbe : b.enabled = true) :
    ∃ s2, toggleTwice s L i = some s2
      ∧ storeAt s2 tab.path (L + 1) = some b
      ∧ markerAt s2 i L = true := by
  have e1 := toggle_eq_off s L i d idx tab b hd hx ht hm hb
  set d1 : DebugClient := DebugClient.disable_breakpoint d b with hd1def
  set idx1 : BPIndex :=
    updateFile idx tab.path (fun m => setEnabledAt m (L + 1) false) with hidx1
  have hx1 : d1.bp_index = some idx1 := by
    simp [hd1def, hidx1, DebugClient.disable_breakpoint, hx, hbf, hbl]
  set tab1 : Tab := tab.markerDelete L with htab1
  set s1 : DebugMode :=
    { s with debugger := some d1,
             view := { s.view with
                       widgets := s.view.widgets.set i tab1 } } with hs1
  have ht1 : s1.view.widgets.get? i = some tab1 :=
    getSet_same s.view.widgets i tab1 tab ht
  have hm1 : tab1.markersAtLine L = false := by
    simp [htab1, Tab.markerDelete, Tab.markersAtLine, memNat_removeNat_self]
  have hpath1 : tab1.path = tab.path := rfl
  have hb1 : lookupKey (lookupFile idx1 tab1.path) (L + 1)
      = some { b with enabled := false } := by
    rw [hpath1, hidx1, lookupFile_updateFile_self,
        lookupKey_setEnabledAt_self, hb]
    rfl
  have e2 := toggle_eq_on_reuse s1 L i d1 idx1 tab1
    { b with enabled := false } rfl hx1 ht1 hm1 hb1
  have htt : toggleTwice s L i = toggle_breakpoint s1 L i := by
    simp only [toggleTwice, e1]
  refine ⟨_, htt.trans e2, ?_, ?_⟩
  · simp only [storeAt, DebugClient.enable_breakpoint, hx1]
    simp [hbf, hbl, lookupFile_updateFile_self, hidx1,
          lookupKey_setEnabledAt_self, hb]
    cases b with
    | mk bf bl be bc =>
      simp at hbf hbl hbe
      simp [hbf, hbl, hbe]
  · simp only [markerAt]
    rw [getSet_same _ i _ tab1 ht1]
    simp [Tab.markerAdd, Tab.markersAtLine, memNat_insertNat_self]

theorem toggleTwice_marker_off_reuse (s : DebugMode) (L i : Nat)
    (d : DebugClient) (idx : BPIndex) (tab : Tab) (b : Breakpoint)
    (hd : s.debugger = some d) (hx : d.bp_index = some idx)
    (ht : s.view.widgets.get? i = some tab)
    (hm : tab.markersAtLine L = false)
    (hb : lookupKey (lookupFile idx tab.path) (L + 1) = some b)
    (hbf : b.file_path = tab.path) (hbl : b.line = L + 1)
    (hbe : b.enabled = false) :
    ∃ s2, toggleTwice s L i = some s2
      ∧ storeAt s2 tab.path (L + 1) = some b
      ∧ markerAt s2 i L = false := by
  have e1 := toggle_eq_on_reuse s L i d idx tab b hd hx ht hm hb
  set d1 : DebugClient := DebugClient.enable_breakpoint d b with hd1def
  set idx1 : BPIndex :=
    updateFile idx tab.path (fun m => setEnabledAt m (L + 1) true) with hidx1
  have hx1 : d1.bp_index = some idx1 := by
    simp [hd1def, hidx1, DebugClient.enable_breakpoint, hx, hbf, hbl]
  set tab1 : Tab := tab.markerAdd L with htab1
  set s1 : DebugMode :=
    { s with debugger := some d1,
             view := { s.view with
                       widgets := s.view.widgets.set i tab1 } } with hs1
  have ht1 : s1.view.widgets.get? i = some tab1 :=
    getSet_same s.view.widgets i tab1 tab ht
  have hm1 : tab1.markersAtLine L = true := by
    simp [htab1, Tab.markerAdd, Tab.markersAtLine, memNat_insertNat_self]
  have hpath1 : tab1.path = tab.path := rfl
  have hb1 : lookupKey (lookupFile idx1 tab1.path) (L + 1)
      = some { b with enabled := true } := by
    rw [hpath1, hidx1, lookupFile_updateFile_self,
        lookupKey_setEnabledAt_self, hb]
    rfl
  have e2 := toggle_eq_off s1 L i d1 idx1 tab1
    { b with enabled := true } rfl hx1 ht1 hm1 hb1
  have htt : toggleTwice s L i = toggle_breakpoint s1 L i := by
    simp only [toggleTwice, e1]
  refine ⟨_, htt.trans e2, ?_, ?_⟩
  · simp only [storeAt, DebugClient.disable_breakpoint, hx1]
    simp [hbf, hbl, lookupFile_updateFile_self, hidx1,
          lookupKey_setEnabledAt_self, hb]
    cases b with
    | mk bf bl be bc =>
      simp at hbf hbl hbe
      simp [hbf, hbl, hbe]
  · simp only [markerAt]
    rw [getSet_same _ i _ tab1 ht1]
    simp [Tab.markerDelete, Tab.markersAtLine, memNat_removeNat_self]

theorem toggleTwice_create (s : DebugMode) (L i : Nat) (d : DebugClient)
    (idx : BPIndex) (tab : Tab)
    (hd : s.debugger = some d) (hx : d.bp_index = some idx)
    (ht : s.view.widgets.get? i = some tab)
    (hm : tab.markersAtLine L = false)
    (hb : lookupKey (lookupFile idx tab.path) (L + 1) = none) :
    ∃ s2, toggleTwice s L i = some s2
      ∧ markerAt s2 i L = false
      ∧ storeAt s2 tab.path (L + 1) = some ⟨tab.path, L + 1, false, 0⟩ := by
  have e1 := toggle_eq_on_create s L i d idx tab hd hx ht hm hb
  set nb : Breakpoint := ⟨tab.path, L + 1, true, 0⟩ with hnb
  set d1 : DebugClient := DebugClient.create_breakpoint d tab.path (L + 1)
    with hd1def
  set idx1 : BPIndex :=
    updateFile idx tab.path (fun m =>
      match lookupKey m (L + 1) with
      | some _ => m
      | none => m ++ [(L + 1, nb)]) with hidx1
  have hx1 : d1.bp_index = some idx1 := by
    simp [hd1def, hidx1, DebugClient.create_breakpoint, hx, hnb]
  set tab1 : Tab := tab.markerAdd L with htab1
  set s1 : DebugMode :=
    { s with debugger := some d1,
             view := { s.view with
                       widgets := s.view.widgets.set i tab1 } } with hs1
  have ht1 : s1.view.widgets.get? i = some tab1 :=
    getSet_same s.view.widgets i tab1 tab ht
  have hm1 : tab1.markersAtLine L = true := by
    simp [htab1, Tab.markerAdd, Tab.markersAtLine, memNat_insertNat_self]
  have hpath1 : tab1.path = tab.path := rfl
  have hfile1 : lookupFile idx1 tab1.path
      = lookupFile idx tab.path ++ [(L + 1, nb)] := by
    rw [hpath1, hidx1, lookupFile_updateFile_self, hb]
  have hb1 : lookupKey (lookupFile idx1 tab1.path) (L + 1) = some nb := by
    rw [hfile1]
    exact lookupKey_append_self _ _ _ hb
  have e2 := toggle_eq_off s1 L i d1 idx1 tab1 nb rfl hx1 ht1 hm1 hb1
  have htt : toggleTwice s L i = toggle_breakpoint s1 L i := by
    simp only [toggleTwice, e1]
  refine ⟨_, htt.trans e2, ?_, ?_⟩
  · simp only [markerAt]
    rw [getSet_same _ i _ tab1 ht1]
    simp [Tab.markerDelete, Tab.markersAtLine, memNat_removeNat_self]
  · simp only [storeAt, DebugClient.disable_breakpoint, hx1]
    simp [hnb, lookupFile_updateFile_self, hfile1, hidx1,
          lookupKey_setEnabledAt_self, lookupKey_append_self _ _ _ hb, hb]

/-- C1 (amended): two toggles at the same line restore the marker state at
that line, and restore the breakpoint record at that line whenever a record
already existed there with its `enabled` flag agreeing with the marker; when
no record existed and no marker was shown, the marker state is restored but
a freshly created record is left behind, disabled. -/
theorem toggle_toggle_restores_line_state
    (s : DebugMode) (L i : Nat) (d : DebugClient) (idx : BPIndex) (tab : Tab)
    (hd : s.debugger = some d) (hx : d.bp_index = some idx)
    (ht : s.view.widgets.get? i = some tab) :
    (∀ b : Breakpoint, lookupKey (lookupFile idx tab.path) (L + 1) = some b →
      b.file_path = tab.path → b.line = L + 1 →
      b.enabled = tab.markersAtLine L →
      ∃ s2, toggleTwice s L i = some s2
        ∧ storeAt s2 tab.path (L + 1) = some b
        ∧ markerAt s2 i L = markerAt s i L)
    ∧ (lookupKey (lookupFile idx tab.path) (L + 1) = none →
      tab.markersAtLine L = false →
      ∃ s2, toggleTwice s L i = some s2
        ∧ markerAt s2 i L = markerAt s i L
        ∧ storeAt s2 tab.path (L + 1) = some ⟨tab.path, L + 1, false, 0⟩) := by
  have hms : markerAt s i L = tab.markersAtLine L := by
    simp only [markerAt, ht]
  constructor
  · intro b hb hbf hbl hbe
    cases hmk : tab.markersAtLine L with
    | true =>
      have hbe' : b.enabled = true := by rw [hbe, hmk]
      obtain ⟨s2, h1, h2, h3⟩ :=
        toggleTwice_marker_on s L i d idx tab b hd hx ht hmk hb hbf hbl hbe'
      exact ⟨s2, h1, h2, by rw [h3, hms, hmk]⟩
    | false =>
      have hbe' : b.enabled = false := by rw [hbe, hmk]
      obtain ⟨s2, h1, h2, h3⟩ :=
        toggleTwice_marker_off_reuse s L i d idx tab b hd hx ht hmk hb hbf
          hbl hbe'
      exact ⟨s2, h1, h2, by rw [h3, hms, hmk]⟩
  · intro hb hmk
    obtain ⟨s2, h1, h2, h3⟩ := toggleTwice_create s L i d idx tab hd hx ht hmk hb
    exact ⟨s2, h1, by rw [h2, hms, hmk], h3⟩

theorem toggle_toggle_restores_line_state_witness :
    ∃ s2, toggleTwice (modeA [4] [(5, ⟨"a.py", 5, true, 0⟩)]) 4 0 = some s2
      ∧ storeAt s2 ("a.py") 5 = some ⟨"a.py", 5, true, 0⟩
      ∧ markerAt s2 0 4
          = markerAt (modeA [4] [(5, ⟨"a.py", 5, true, 0⟩)]) 0 4 :=
  (toggle_toggle_restores_line_state
    (modeA [4] [(5, ⟨"a.py", 5, true, 0⟩)]) 4 0
    (clientA [(5, ⟨"a.py", 5, true, 0⟩)])
    [("a.py", [(5, ⟨"a.py", 5, true, 0⟩)])] (tabA [4]) rfl rfl rfl).1
    ⟨"a.py", 5, true, 0⟩ rfl rfl rfl (by decide)

/-- C1 counterexample: starting from a state with no marker and no record at
the line, two toggles do not return the BreakpointStore to its pre-toggle
value — a disabled record at key 5 appears where there was none. -/
theorem toggle_toggle_leaves_disabled_record :
    (toggleTwice (modeA [] []) 4 0).bind (fun s2 => storeAt s2 ("a.py") 5)
        = some ⟨"a.py", 5, false, 0⟩
      ∧ storeAt (modeA [] []) "a.py" 5 = none := by
  constructor
  · rfl
  · rfl

/-- Equation for `modifyCurrentTab` when a current tab exists. -/
theorem modifyCurrentTab_eq (s : DebugMode) (g : Tab → Tab) (t : Tab)
    (ht : s.view.widgets.get? s.view.current = some t) :
    modifyCurrentTab s g
      = some { s with
               view := { s.view with
                         widgets := s.view.widgets.set s.view.current
                           (g t) } } := by
  simp only [modifyCurrentTab, ht]

/-- C7 (amended): `stop` is idempotent as a state transformer, and `stop`
from a fully reset idle state (no runner, editor mode already `python`,
read-only off) leaves the state unchanged; from a bare runner-free state it
still rewrites the editor mode and the read-only flag. -/
theorem stop_idempotent_and_idle_fixpoint (s : DebugMode) :
    stop (stop s) = stop s
    ∧ (s.runner = none → s.editor_mode = "python" → s.read_only = false →
      stop s = s) := by
  constructor
  · cases hr : s.runner <;> simp [stop, hr]
  · intro h1 h2 h3
    cases s with
    | mk v r dbg m ro b1 b2 b3 b4 b5 =>
      simp only at h1 h2 h3
      subst h1
      subst h2
      subst h3
      rfl

theorem stop_idempotent_and_idle_fixpoint_witness :
    stop idleMode = idleMode :=
  (stop_idempotent_and_idle_fixpoint idleMode).2 rfl rfl rfl

/-- C7 counterexample: with no runner present (`Idle` in the sense that no
process handle is held) but the editor mode still reading `debugger`, `stop`
is not a no-op — it rewrites the editor mode and read-only flag. -/
theorem stop_when_idle_changes_mode :
    stop staleMode ≠ staleMode := by
  decide

/-- C2 counterexample: from an active (non-`Idle`) state, handling the
process-termination event does not reach phase `Idle` and leaves one
surviving process handle — `finished` never clears `runner`. -/
theorem finished_keeps_runner_handle :
    isIdle (modeA [] []) = false
    ∧ isIdle (finished (modeA [] []) 0 0) = false
    ∧ processHandles (finished (modeA [] []) 0 0) = 1 :=
  ⟨rfl, rfl, rfl⟩

/-- C2 (amended): from every phase except `Idle`, handling a
process-termination event keeps the runner handle (the phase is `Finished`,
not `Idle`) and disables every action except `stop`; phase `Idle` with zero
surviving process handles is reached only after the subsequent `stop`
call. -/
theorem termination_then_stop_reaches_idle (s : DebugMode) (c : Int)
    (st : Nat) (h : isIdle s = false) :
    (finished s c st).runner = s.runner
    ∧ isIdle (finished s c st) = false
    ∧ (finished s c st).run_enabled = false
    ∧ (finished s c st).step_over_enabled = false
    ∧ (finished s c st).step_in_enabled = false
    ∧ (finished s c st).step_out_enabled = false
    ∧ (finished s c st).stop_enabled = s.stop_enabled
    ∧ isIdle (stop (finished s c st)) = true
    ∧ processHandles (stop (finished s c st)) = 0 := by
  cases hr : s.runner with
  | none => rw [isIdle, hr] at h; simp at h
  | some u =>
    refine ⟨hr, ?_, rfl, rfl, rfl, rfl, rfl, ?_, ?_⟩
    · simp [isIdle, finished, hr]
    · simp [stop, finished, isIdle, hr]
    · simp [stop, finished, processHandles, hr]

theorem termination_then_stop_reaches_idle_witness :
    isIdle (stop (finished (modeA [] []) 0 0)) = true
    ∧ processHandles (stop (finished (modeA [] []) 0 0)) = 0 :=
  (termination_then_stop_reaches_idle (modeA [] []) 0 0 rfl).2.2.2.2.2.2.2

/-- C5 counterexample: with `a.py` open at index 0 and `b.py` the current
tab, `debug_on_line` for file `a.py`, line 10, leaves the `a.py` tab's
selection untouched and instead moves the selection of the current `b.py`
tab — the event is not forwarded to the tab of its file. -/
theorem on_line_ignores_event_file :
    (debug_on_line modeAB ("a.py") 10).bind
        (fun s' => (s'.view.widgets.get? 0).map Tab.selection)
      = some (0, 0, 0, 0)
    ∧ (debug_on_line modeAB ("a.py") 10).bind
        (fun s' => (s'.view.widgets.get? 1).map Tab.selection)
      = some (9, 0, 10, 0) :=
  ⟨rfl, rfl⟩

/-- C5 (amended): `debug_on_line(file, line)` with a 1-based `line` sets the
selection of the currently selected tab — whatever file it shows — to start
at 0-based line `line - 1` (spanning to the start of `line`), and changes
nothing else: other tabs, the runner handle, the client, the editor mode and
the read-only flag are untouched.  No phase-bearing controller state exists
for a `Running -> Paused` transition. -/
theorem on_line_moves_current_tab_selection (s : DebugMode)
    (filename : String) (line : Nat) (t : Tab) ( h_line : 1 ≤ line)
    (ht : s.view.widgets.get? s.view.current = some t) :
    ∃ s', debug_on_line s filename line = some s'
      ∧ s'.view.widgets.get? s.view.current
          = some { t with selection := (line - 1, 0, line, 0) }
      ∧ (∀ j, j ≠ s.view.current →
          s'.view.widgets.get? j = s.view.widgets.get? j)
      ∧ s'.view.current = s.view.current
      ∧ s'.runner = s.runner ∧ s'.debugger = s.debugger
      ∧ s'.editor_mode = s.editor_mode ∧ s'.read_only = s.read_only := by
  refine ⟨_, modifyCurrentTab_eq s _ t ht, ?_, ?_, rfl, rfl, rfl, rfl, rfl⟩
  · exact getSet_same _ _ _ t ht
  · intro j hj
    exact getSet_other _ _ _ _ hj

theorem on_line_moves_current_tab_selection_witness :
    ∃ s', debug_on_line modeAB ("a.py") 10 = some s'
      ∧ s'.view.widgets.get? 1
          = some ⟨"b.py", [], [], (9, 0, 10, 0)⟩
      ∧ (∀ j, j ≠ 1 →
          s'.view.widgets.get? j = modeAB.view.widgets.get? j)
      ∧ s'.view.current = 1
      ∧ s'.runner = modeAB.runner ∧ s'.debugger = modeAB.debugger
      ∧ s'.editor_mode = modeAB.editor_mode
      ∧ s'.read_only = modeAB.read_only :=
  on_line_moves_current_tab_selection modeAB ("a.py") 10
    ⟨"b.py", [], [], (0, 0, 0, 0)⟩ (by decide) rfl

/-- C9: the inbound handlers act only on the currently selected tab — two
`on_line` events differing only in their file, and two breakpoint
enable/disable events whose breakpoints agree on `line` but may differ in
`file_path` (or any other field), produce identical successor states. -/
theorem handlers_ignore_event_file_identity (s : DebugMode)
    (f1 f2 : String) (line : Nat) (bp1 bp2 : Breakpoint)
    (hl : bp1.line = bp2.line) :
    debug_on_line s f1 line = debug_on_line s f2 line
    ∧ debug_on_breakpoint_enable s bp1 = debug_on_breakpoint_enable s bp2
    ∧ debug_on_breakpoint_disable s bp1
        = debug_on_breakpoint_disable s bp2 := by
  refine ⟨rfl, ?_, ?_⟩
  · simp [debug_on_breakpoint_enable, hl]
  · simp [debug_on_breakpoint_disable, hl]

theorem handlers_ignore_event_file_identity_witness :
    debug_on_line modeAB ("a.py") 10 = debug_on_line modeAB ("c.py") 10
    ∧ debug_on_breakpoint_enable modeAB ⟨"a.py", 7, true, 0⟩
        = debug_on_breakpoint_enable modeAB ⟨"c.py", 7, true, 0⟩
    ∧ debug_on_breakpoint_disable modeAB ⟨"a.py", 7, true, 0⟩
        = debug_on_breakpoint_disable modeAB ⟨"c.py", 7, true, 0⟩ :=
  handlers_ignore_event_file_identity modeAB ("a.py") "c.py" 10
    ⟨"a.py", 7, true, 0⟩ ⟨"c.py", 7, true, 0⟩ rfl

/-- C3: coordinate symmetry at the marker layer.  (a) Toggling on at
0-based `L` creates the record at 1-based `L + 1` and the matching enable
event returns to the marker at `L`; (b) toggling off at `L` disables the
record at `L + 1` and the matching disable event returns to the marker at
`L`; (c) every inbound enable/disable event for a breakpoint at 1-based
`bp.line` changes the marker at 0-based `bp.line - 1`. -/
theorem coordinate_translation_round_trip (s : DebugMode) (L : Nat)
    (d : DebugClient) (idx : BPIndex) (tab : Tab)
    (hd : s.debugger = some d) (hx : d.bp_index = some idx)
    (ht : s.view.widgets.get? s.view.current = some tab) :
    (tab.markersAtLine L = false →
      lookupKey (lookupFile idx tab.path) (L + 1) = none →
      ∃ s1, toggle_breakpoint s L s.view.current = some s1
        ∧ storeAt s1 tab.path (L + 1) = some ⟨tab.path, L + 1, true, 0⟩
        ∧ markerAt s1 s.view.current L = true
        ∧ (∀ bp : Breakpoint, bp.line = L + 1 →
            ∃ s2, debug_on_breakpoint_enable s1 bp = some s2
              ∧ markerAt s2 s.view.current L = true))
    ∧ (tab.markersAtLine L = true →
      ∀ b : Breakpoint, lookupKey (lookupFile idx tab.path) (L + 1) = some b →
      b.file_path = tab.path → b.line = L + 1 →
      ∃ s1, toggle_breakpoint s L s.view.current = some s1
        ∧ storeAt s1 tab.path (L + 1) = some { b with enabled := false }
        ∧ markerAt s1 s.view.current L = false
        ∧ (∀ bp : Breakpoint, bp.line = L + 1 →
            ∃ s2, debug_on_breakpoint_disable s1 bp = some s2
              ∧ markerAt s2 s.view.current L = false))
    ∧ (∀ bp : Breakpoint,
        (∃ s', debug_on_breakpoint_enable s bp = some s'
          ∧ markerAt s' s.view.current (bp.line - 1) = true)
        ∧ (∃ s', debug_on_breakpoint_disable s bp = some s'
          ∧ markerAt s' s.view.current (bp.line - 1) = false)) := by
  refine ⟨?_, ?_, ?_⟩
  · intro hm hb
    have e1 := toggle_eq_on_create s L s.view.current d idx tab hd hx ht hm hb
    set tab1 : Tab := tab.markerAdd L with htab1
    refine ⟨_, e1, ?_, ?_, ?_⟩
    · simp [storeAt, DebugClient.create_breakpoint, hx,
            lookupFile_updateFile_self, hb, lookupKey_append_self _ _ _ hb]
    · simp only [markerAt]
      rw [getSet_same _ _ _ tab ht]
      simp [htab1, Tab.markerAdd, Tab.markersAtLine, memNat_insertNat_self]
    · intro bp hbp
      have hL : bp.line - 1 = L := by omega
      have ht1 : (s.view.widgets.set s.view.current tab1).get?
          s.view.current = some tab1 := getSet_same _ _ _ tab ht
      refine ⟨_, modifyCurrentTab_eq _ _ tab1 ht1, ?_⟩
      simp only [markerAt]
      rw [getSet_same _ _ _ tab1 ht1, hL]
      simp [htab1, Tab.markerAdd, Tab.markersAtLine, memNat_insertNat_self]
  · intro hm b hb hbf hbl
    have e1 := toggle_eq_off s L s.view.current d idx tab b hd hx ht hm hb
    set tab1 : Tab := tab.markerDelete L with htab1
    refine ⟨_, e1, ?_, ?_, ?_⟩
    · simp [storeAt, DebugClient.disable_breakpoint, hx, hbf, hbl,
            lookupFile_updateFile_self, lookupKey_setEnabledAt_self, hb]
    · simp only [markerAt]
      rw [getSet_same _ _ _ tab ht]
      simp [htab1, Tab.markerDelete, Tab.markersAtLine, memNat_removeNat_self]
    · intro bp hbp
      have hL : bp.line - 1 = L := by omega
      have ht1 : (s.view.widgets.set s.view.current tab1).get?
          s.view.current = some tab1 := getSet_same _ _ _ tab ht
      refine ⟨_, modifyCurrentTab_eq _ _ tab1 ht1, ?_⟩
      simp only [markerAt]
      rw [getSet_same _ _ _ tab1 ht1, hL]
      simp [htab1, Tab.markerDelete, Tab.markersAtLine, memNat_removeNat_self]
  · intro bp
    constructor
    · refine ⟨_, modifyCurrentTab_eq _ _ tab ht, ?_⟩
      simp only [markerAt]
      rw [getSet_same _ _ _ tab ht]
      simp [Tab.markerAdd, Tab.markersAtLine, memNat_insertNat_self]
    · refine ⟨_, modifyCurrentTab_eq _ _ tab ht, ?_⟩
      simp only [markerAt]
      rw [getSet_same _ _ _ tab ht]
      simp [Tab.markerDelete, Tab.markersAtLine, memNat_removeNat_self]

theorem coordinate_translation_round_trip_witness :
    ∃ s1, toggle_breakpoint (modeA [] []) 4 0 = some s1
      ∧ storeAt s1 ("a.py") 5 = some ⟨"a.py", 5, true, 0⟩
      ∧ markerAt s1 0 4 = true
      ∧ (∀ bp : Breakpoint, bp.line = 5 →
          ∃ s2, debug_on_breakpoint_enable s1 bp = some s2
            ∧ markerAt s2 0 4 = true) :=
  (coordinate_translation_round_trip (modeA [] []) 4 (clientA [])
    [("a.py", [])] (tabA []) rfl rfl rfl).1 (by decide) rfl

/-! The bootstrap loop as a flat request list. -/

theorem foldl_append_singleton (g : Nat → Request) (l : List Nat)
    (acc : List Request) :
    l.foldl (fun a x => a ++ [g x]) acc = acc ++ l.map g := by
  induction l generalizing acc with
  | nil => simp
  | cons x xs ih => simp [ih]

theorem bootstrap_loop_eq (ws : List Tab) (acc : List Request) :
    ws.foldl (fun acc t =>
      t.breakpoint_lines.foldl
        (fun a l => a ++ [Request.setBreakpoint t.path (l + 1)]) acc) acc
      = acc ++ ws.flatMap (fun t =>
          t.breakpoint_lines.map
            (fun l => Request.setBreakpoint t.path (l + 1))) := by
  induction ws generalizing acc with
  | nil => simp
  | cons t ts ih =>
    simp only [List.foldl_cons]
    rw [foldl_append_singleton, ih]
    simp

/-- C6: `debug_on_bootstrap` issues exactly one set-breakpoint request per
remembered line of every open tab, each translated to 1-based `line + 1`,
and the `run()` request comes strictly after all of them — the emitted trace
is the flattened per-tab request list followed by `run`, and `run` never
occurs among the breakpoint requests. -/
theorem bootstrap_emits_breakpoints_before_run (s : DebugMode) :
    debug_on_bootstrap s
      = (s.view.widgets.flatMap (fun t =>
          t.breakpoint_lines.map
            (fun l => Request.setBreakpoint t.path (l + 1))))
        ++ [Request.run]
    ∧ ∀ r ∈ s.view.widgets.flatMap (fun t =>
        t.breakpoint_lines.map
          (fun l => Request.setBreakpoint t.path (l + 1))),
        r ≠ Request.run := by
  constructor
  · unfold debug_on_bootstrap
    rw [bootstrap_loop_eq]
    simp
  · intro r hr
    simp only [List.mem_flatMap, List.mem_map] at hr
    obtain ⟨t, ht, l, hl, he⟩ := hr
    rw [← he]
    simp

/-! Lemmas for the marker-resynchronisation loop of `finished`. -/

theorem memNat_insertNat_iff (l : List Nat) (y x : Nat) :
    memNat (insertNat l y) x = true ↔ (y = x ∨ memNat l x = true) := by
  unfold insertNat
  by_cases hm : memNat l y = true
  · simp only [hm, if_true]
    constructor
    · exact fun h => Or.inr h
    · rintro (rfl | h)
      · exact hm
      · exact h
  · simp only [hm, if_false, Bool.false_eq_true]
    by_cases hyx : y = x
    · subst hyx
      simp [memNat]
    · simp [memNat, hyx]

theorem resyncStep_markers (t : Tab) (p : Nat × Breakpoint) :
    (resyncStep t p).markers
      = if p.2.enabled then insertNat t.markers (p.1 - 1) else t.markers := by
  unfold resyncStep
  by_cases he : p.2.enabled <;> simp [he, Tab.markerAdd, Tab.addBpLine]

theorem resyncStep_path (t : Tab) (p : Nat × Breakpoint) :
    (resyncStep t p).path = t.path := by
  unfold resyncStep
  by_cases he : p.2.enabled <;> simp [he, Tab.markerAdd, Tab.addBpLine]

theorem resyncStep_selection (t : Tab) (p : Nat × Breakpoint) :
    (resyncStep t p).selection = t.selection := by
  unfold resyncStep
  by_cases he : p.2.enabled <;> simp [he, Tab.markerAdd, Tab.addBpLine]

theorem resyncFold_path (m : FileBPs) (t : Tab) :
    (m.foldl resyncStep t).path = t.path := by
  induction m generalizing t with
  | nil => rfl
  | cons p ps ih => simp [List.foldl_cons, ih, resyncStep_path]

theorem resyncFold_selection (m : FileBPs) (t : Tab) :
    (m.foldl resyncStep t).selection = t.selection := by
  induction m generalizing t with
  | nil => rfl
  | cons p ps ih => simp [List.foldl_cons, ih, resyncStep_selection]

theorem resyncFold_markers_iff (m : FileBPs) (t : Tab) (x : Nat) :
    memNat (m.foldl resyncStep t).markers x = true
      ↔ (memNat t.markers x = true
          ∨ ∃ p ∈ m, p.2.enabled = true ∧ p.1 - 1 = x) := by
  induction m generalizing t with
  | nil => simp
  | cons p ps ih =>
    rw [List.foldl_cons, ih]
    by_cases he : p.2.enabled
    · rw [show (resyncStep t p).markers = insertNat t.markers (p.1 - 1) by
        rw [resyncStep_markers]; simp [he]]
      rw [memNat_insertNat_iff]
      constructor
      · rintro ((rfl | h) | ⟨q, hq, hqe, hqx⟩)
        · exact Or.inr ⟨p, List.mem_cons_self p ps, by simp [he], rfl⟩
        · exact Or.inl h
        · exact Or.inr ⟨q, List.mem_cons_of_mem p hq, hqe, hqx⟩
      · rintro (h | ⟨q, hq, hqe, hqx⟩)
        · exact Or.inl (Or.inr h)
        · rcases List.mem_cons.mp hq with rfl | hq'
          · exact Or.inl (Or.inl hqx)
          · exact Or.inr ⟨q, hq', hqe, hqx⟩
    · rw [show (resyncStep t p).markers = t.markers by
        rw [resyncStep_markers]; simp [he]]
      constructor
      · rintro (h | ⟨q, hq, hqe, hqx⟩)
        · exact Or.inl h
        · exact Or.inr ⟨q, List.mem_cons_of_mem p hq, hqe, hqx⟩
      · rintro (h | ⟨q, hq, hqe, hqx⟩)
        · exact Or.inl h
        · rcases List.mem_cons.mp hq with rfl | hq'
          · exact absurd hqe (by simpa using he)
          · exact Or.inr ⟨q, hq', hqe, hqx⟩

theorem resyncFold_clear_markers_iff (m : FileBPs) (t0 : Tab)
    (hm0 : t0.markers = []) (x : Nat) :
    memNat (m.foldl resyncStep t0).markers x = true
      ↔ ∃ p ∈ m, p.2.enabled = true ∧ p.1 - 1 = x := by
  rw [resyncFold_markers_iff, hm0]
  simp [memNat]

theorem lookupKey_of_mem_distinct (m : FileBPs) (k : Nat) (b : Breakpoint)
    (hk : keysDistinct m) (hmem : (k, b) ∈ m) : lookupKey m k = some b := by
  induction m with
  | nil => simp at hmem
  | cons p ps ih =>
    rcases List.mem_cons.mp hmem with rfl | hmem'
    · simp [lookupKey]
    · have hne : p.1 ≠ k := by
        have := (List.pairwise_cons.mp hk).1 (k, b) hmem'
        simpa using this
      rw [lookupKey, if_neg hne]
      exact ih (List.pairwise_cons.mp hk).2 hmem'

theorem mem_of_lookupKey (m : FileBPs) (k : Nat) (b : Breakpoint)
    (h : lookupKey m k = some b) : (k, b) ∈ m := by
  induction m with
  | nil => simp [lookupKey] at h
  | cons p ps ih =>
    obtain ⟨k', b'⟩ := p
    rw [lookupKey] at h
    by_cases hp : k' = k
    · simp only [hp, if_true, Option.some_inj] at h
      subst hp
      subst h
      exact List.mem_cons_self _ _
    · simp only [hp, if_false] at h
      exact List.mem_cons_of_mem _ (ih h)

theorem enabled_entry_iff_lookup (m : FileBPs) (L : Nat)
    (hk : keysDistinct m) (hpos : ∀ p ∈ m, 1 ≤ p.1) :
    (∃ p ∈ m, p.2.enabled = true ∧ p.1 - 1 = L)
      ↔ (∃ b, lookupKey m (L + 1) = some b ∧ b.enabled = true) := by
  constructor
  · rintro ⟨⟨k, b⟩, hmem, he, hx⟩
    have h1 : 1 ≤ k := hpos (k, b) hmem
    have hkL : k = L + 1 := by omega
    subst hkL
    exact ⟨b, lookupKey_of_mem_distinct m _ b hk hmem, he⟩
  · rintro ⟨b, hl, he⟩
    exact ⟨(L + 1, b), mem_of_lookupKey m _ b hl, he, by omega⟩

/-- C8: when a process-termination event is handled with a debug client
attached (one whose `bp_index` exists), every open tab afterwards carries a
marker at 0-based line `L` exactly when the client's store holds an enabled
breakpoint at 1-based line `L + 1` for that tab's file, and the tab's
selection is reset to the origin. -/
theorem finished_resyncs_markers_from_store (s : DebugMode) (c : Int)
    (st : Nat) (d : DebugClient) (idx : BPIndex)
    (hd : s.debugger = some d) (hx : d.bp_index = some idx)
    (hwf : ∀ f, keysDistinct (lookupFile idx f)
      ∧ ∀ p ∈ lookupFile idx f, 1 ≤ p.1) :
    ∀ i t', (finished s c st).view.widgets.get? i = some t' →
      t'.selection = (0, 0, 0, 0)
      ∧ ∀ L, (t'.markersAtLine L = true
          ↔ ∃ b, lookupKey (lookupFile idx t'.path) (L + 1) = some b
              ∧ b.enabled = true) := by
  intro i t' hget
  have hmap : (finished s c st).view.widgets
      = s.view.widgets.map (resyncTab s.debugger) := rfl
  rw [hmap, List.get?_map] at hget
  cases hti : s.view.widgets.get? i with
  | none => rw [hti] at hget; simp at hget
  | some t =>
    rw [hti] at hget
    have ht' : t' = resyncTab s.debugger t := by
      simpa using hget.symm
    subst ht'
    rw [hd]
    simp only [resyncTab, hx]
    constructor
    · rw [resyncFold_selection]
    · intro L
      simp only [Tab.markersAtLine, resyncFold_path]
      exact Iff.trans (resyncFold_clear_markers_iff _ _ rfl L)
        (enabled_entry_iff_lookup _ L (hwf _).1 (hwf _).2)

theorem finished_resyncs_markers_from_store_witness :
    (⟨"a.py", [1], [1], (0, 0, 0, 0)⟩ : Tab).markersAtLine 1 = true
      ↔ ∃ b, lookupKey (lookupFile [("a.py", [(2, ⟨"a.py", 2, true, 0⟩)])]
          "a.py") 2 = some b ∧ b.enabled = true :=
  ((finished_resyncs_markers_from_store
      (modeA [7] [(2, ⟨"a.py", 2, true, 0⟩)]) 0 0
      (clientA [(2, ⟨"a.py", 2, true, 0⟩)])
      [("a.py", [(2, ⟨"a.py", 2, true, 0⟩)])] rfl rfl
      (by
        intro f
        by_cases hf : "a.py" = f
        · constructor
          · rw [lookupFile, if_pos hf]
            simp [keysDistinct]
          · rw [lookupFile, if_pos hf]
            intro p hp
            simp at hp
            subst hp
            decide
        · constructor
          · rw [lookupFile, if_neg hf]
            simp [keysDistinct, lookupFile]
          · rw [lookupFile, if_neg hf]
            intro p hp
            simp [lookupFile] at hp))
    0 ⟨"a.py", [1], [1], (0, 0, 0, 0)⟩ rfl).2 1

end Mu
